import Mathlib

/-!
Verification of the hookserve webhook server (src/hookserve/hookserve.go).

Go strings are modelled as Lean `String`s; the byte-level indexing and
length of Go coincide with character-level indexing on the ASCII strings
the code manipulates, so slicing is modelled on the character list
`s.data`. The out-of-bounds slice panic of Go is modelled by `Option`
(`none` = panic).
The external JSON library (go-jsontree) and the HMAC-SHA1 primitive from
the Go standard library are modelled respectively by the `Json` tree type
below and by an abstract function parameter `hmacSha1`.
-/

namespace Hookserve

/-- Length of a Go string (bytes in Go; characters here, equal on ASCII). -/
def goLen (s : String) : Nat := s.data.length

/-- Go `s[:n]`: first `n` bytes; out of bounds (`none` = panic) when `n > len(s)`. -/
def goTake (s : String) (n : Nat) : Option String :=
  if n ≤ goLen s then some (String.mk (s.data.take n)) else none

/-- Go `s[n:]`: suffix from byte `n`; out of bounds (`none` = panic) when `n > len(s)`. -/
def goDrop (s : String) (n : Nat) : Option String :=
  if n ≤ goLen s then some (String.mk (s.data.drop n)) else none

/-- Total suffix used where the code has already bounds-checked the string. -/
def dropN (s : String) (n : Nat) : String := String.mk (s.data.drop n)

/-- Go `strings.Split(·, "\n")`: substrings between newline separators. -/
def splitNlAux : List Char → List Char → List String
  | [], acc => [String.mk acc.reverse]
  | c :: cs, acc =>
      if c = '\n' then String.mk acc.reverse :: splitNlAux cs []
      else splitNlAux cs (c :: acc)

def splitNl (s : String) : List String := splitNlAux s.data []

/-- Go `strings.Trim(s, "\n\t ")`: strip leading and trailing cutset characters. -/
def trimCutset (s : String) : String :=
  let cut : List Char := ['\n', '\t', ' ']
  String.mk (((s.data.dropWhile (· ∈ cut)).reverse.dropWhile (· ∈ cut)).reverse)

/-- The `Event` record (hookserve.go, type Event). -/
structure Event where
  owner : String
  repo : String
  branch : String
  commit : String
  type : String
  action : String
  baseOwner : String
  baseRepo : String
  baseBranch : String
deriving DecidableEq, Repr

/-- `ErrInvalidEventFormat` from hookserve.go. -/
def errInvalidEventFormat : String := "Unable to parse event string. Invalid Format."

/-- `NewEvent` from hookserve.go, including its `!= 5 || != 8` line-count guard. -/
def newEvent (e : String) : Except String Event :=
  let t := trimCutset e
  let parts := splitNl t
  if parts.length ≠ 5 ∨ parts.length ≠ 8 then
    .error errInvalidEventFormat
  else if parts.any (fun item => goLen item < 8) then
    .error errInvalidEventFormat
  else
    let ev : Event :=
      { type := dropN (parts.getD 0 "") 8
        owner := dropN (parts.getD 1 "") 8
        repo := dropN (parts.getD 2 "") 8
        branch := dropN (parts.getD 3 "") 8
        commit := dropN (parts.getD 4 "") 8
        action := "", baseOwner := "", baseRepo := "", baseBranch := "" }
    if ev.type = "pull_request" then
      if parts.length = 9 then
        .ok { ev with
              action := dropN (parts.getD 5 "") 8
              baseOwner := dropN (parts.getD 6 "") 8
              baseRepo := dropN (parts.getD 7 "") 8
              baseBranch := dropN (parts.getD 8 "") 8 }
      else if parts.length = 8 then
        .ok { ev with
              baseOwner := dropN (parts.getD 5 "") 8
              baseRepo := dropN (parts.getD 6 "") 8
              baseBranch := dropN (parts.getD 7 "") 8 }
      else
        .error errInvalidEventFormat
    else
      .ok ev

/-- `Event.String` from hookserve.go. -/
def eventString (e : Event) : String :=
  let out := "type:   " ++ e.type ++ "\n" ++
             "owner:  " ++ e.owner ++ "\n" ++
             "repo:   " ++ e.repo ++ "\n" ++
             "branch: " ++ e.branch ++ "\n" ++
             "commit: " ++ e.commit ++ "\n"
  if e.type = "pull_request" then
    out ++ "action: " ++ e.action ++ "\n" ++
           "bowner: " ++ e.baseOwner ++ "\n" ++
           "brepo:  " ++ e.baseRepo ++ "\n" ++
           "bbranch:" ++ e.baseBranch ++ "\n"
  else
    out

/-- JSON trees as exposed by go-jsontree; `undef` is the node returned by
`Get` on a missing key or non-object, whose `String()` accessor errors. -/
inductive Json where
  | null
  | bool (b : Bool)
  | num (n : Int)
  | str (s : String)
  | arr (elems : List Json)
  | obj (fields : List (String × Json))
  | undef

def lookupField : List (String × Json) → String → Json
  | [], _ => Json.undef
  | (k, v) :: rest, key => if k = key then v else lookupField rest key

/-- go-jsontree `Get`. -/
def getKey : Json → String → Json
  | Json.obj fields, key => lookupField fields key
  | _, _ => Json.undef

/-- go-jsontree `String()`: succeeds exactly on string nodes. -/
def jStr : Json → Option String
  | Json.str s => some s
  | _ => none

/-- go-jsontree `IsNull`. -/
def isNull : Json → Bool
  | Json.null => true
  | _ => false

/-- encoding/hex digit table `"0123456789abcdef"` lookup. -/
def hexDigitChar (n : Nat) : Char :=
  if n < 10 then Char.ofNat (48 + n) else Char.ofNat (87 + n)

/-- encoding/hex `EncodeToString`: each byte `b` yields digits for `b >> 4` and `b & 0x0f`. -/
def hexEncode (bs : List Nat) : String :=
  String.mk (bs.foldr (fun b acc => hexDigitChar (b / 16 % 16) :: hexDigitChar (b % 16) :: acc) [])

/-- The `Server` configuration (hookserve.go, type Server); the Events
channel is modelled by the `queued` list of the per-request result. -/
structure Server where
  port : Nat
  path : String
  secret : String
  ignoreTags : Bool

/-- `NewServer` defaults from hookserve.go. -/
def newServer : Server :=
  { port := 80, path := "/postreceive", secret := "", ignoreTags := true }

/-- One inbound HTTP request; absent headers read as `""` (Go `Header.Get`),
and `parsedBody` is the outcome of the external JSON parser on `rawBody`. -/
structure HRequest where
  method : String
  urlPath : String
  ghEvent : String
  hubSignature : String
  rawBody : String
  parsedBody : Option Json

/-- Observable outcome of one request: HTTP status, events sent to the
Events channel, and the response body. -/
structure HttpResult where
  status : Nat
  queued : List Event
  respBody : String
deriving DecidableEq, Repr

/-- `Server.ignoreRef` from hookserve.go; `none` models the slice panic. -/
def ignoreRef (s : Server) (rawRef : String) : Option Bool :=
  match goTake rawRef 10 with
  | none => none
  | some p10 =>
    if p10 = "refs/tags/" ∧ s.ignoreTags = false then some false
    else
      match goTake rawRef 11 with
      | none => none
      | some p11 => some (p11 != "refs/heads/")

/-- The push branch of `Server.ServeHTTP`. -/
def servePush (s : Server) (request : Json) : Option HttpResult :=
  match jStr (getKey request "ref") with
  | none => some ⟨500, [], ""⟩
  | some rawRef =>
    match ignoreRef s rawRef with
    | none => none
    | some ign =>
      if ign || isNull (getKey request "head_commit") then some ⟨200, [], ""⟩
      else
        match goDrop rawRef 11 with
        | none => none
        | some branch =>
          match jStr (getKey (getKey request "repository") "name") with
          | none => some ⟨500, [], ""⟩
          | some repo =>
            match jStr (getKey (getKey request "head_commit") "id") with
            | none => some ⟨500, [], ""⟩
            | some commit =>
              match jStr (getKey (getKey (getKey request "repository") "owner") "name") with
              | none => some ⟨500, [], ""⟩
              | some owner =>
                let ev : Event :=
                  { owner, repo, branch, commit, type := "push",
                    action := "", baseOwner := "", baseRepo := "", baseBranch := "" }
                some ⟨200, [ev], eventString ev⟩

/-- The pull_request branch of `Server.ServeHTTP`. -/
def servePullRequest (request : Json) : Option HttpResult :=
  match jStr (getKey request "action") with
  | none => some ⟨500, [], ""⟩
  | some action =>
    match jStr (getKey (getKey (getKey (getKey (getKey request "pull_request") "head") "repo") "owner") "login") with
    | none => some ⟨500, [], ""⟩
    | some owner =>
      match jStr (getKey (getKey (getKey (getKey request "pull_request") "head") "repo") "name") with
      | none => some ⟨500, [], ""⟩
      | some repo =>
        match jStr (getKey (getKey (getKey request "pull_request") "head") "ref") with
        | none => some ⟨500, [], ""⟩
        | some branch =>
          match jStr (getKey (getKey (getKey request "pull_request") "head") "sha") with
          | none => some ⟨500, [], ""⟩
          | some commit =>
            match jStr (getKey (getKey (getKey (getKey (getKey request "pull_request") "base") "repo") "owner") "login") with
            | none => some ⟨500, [], ""⟩
            | some baseOwner =>
              match jStr (getKey (getKey (getKey (getKey request "pull_request") "base") "repo") "name") with
              | none => some ⟨500, [], ""⟩
              | some baseRepo =>
                match jStr (getKey (getKey (getKey request "pull_request") "base") "ref") with
                | none => some ⟨500, [], ""⟩
                | some baseBranch =>
                  let ev : Event :=
                    { owner, repo, branch, commit, type := "pull_request",
                      action, baseOwner, baseRepo, baseBranch }
                  some ⟨200, [ev], eventString ev⟩

/-- `Server.ServeHTTP` from hookserve.go, parameterised over the external
HMAC-SHA1 primitive (`hmacSha1 key message = mac bytes`). -/
def serveHTTP (hmacSha1 : String → String → List Nat) (s : Server) (req : HRequest) :
    Option HttpResult :=
  if req.method ≠ "POST" then some ⟨405, [], "405 Method not allowed"⟩
  else if req.urlPath ≠ s.path then some ⟨404, [], "404 Not found"⟩
  else if req.ghEvent = "" then
    some ⟨400, [], "400 Bad Request - Missing X-GitHub-Event Header"⟩
  else if req.ghEvent ≠ "push" ∧ req.ghEvent ≠ "pull_request" then
    some ⟨400, [], "400 Bad Request - Unknown Event Type " ++ req.ghEvent⟩
  else if s.secret ≠ "" ∧ req.hubSignature = "" then
    some ⟨403, [], "403 Forbidden - Missing X-Hub-Signature required for HMAC verification"⟩
  else if s.secret ≠ "" ∧ "sha1=" ++ hexEncode (hmacSha1 s.secret req.rawBody) ≠ req.hubSignature then
    some ⟨403, [], "403 Forbidden - HMAC verification failed"⟩
  else
    match req.parsedBody with
    | none => some ⟨500, [], ""⟩
    | some request =>
      if req.ghEvent = "push" then servePush s request
      else if req.ghEvent = "pull_request" then servePullRequest request
      else some ⟨500, [], "Unknown Event Type " ++ req.ghEvent⟩


/-- Stub instantiation of the abstract HMAC-SHA1 parameter for concrete
runs; its digest bytes are arbitrary. -/
def macStub (_key _msg : String) : List Nat := [171, 5]

/-- A push payload for branch main. -/
def samplePushJson : Json :=
  Json.obj [
    ("ref", Json.str "refs/heads/main"),
    ("head_commit", Json.obj [("id", Json.str "abc123")]),
    ("repository", Json.obj [("name", Json.str "r"),
                             ("owner", Json.obj [("name", Json.str "o")])])]

/-- A push payload whose ref is the tag refs/tags/v1.0. -/
def sampleTagJson : Json :=
  Json.obj [
    ("ref", Json.str "refs/tags/v1.0"),
    ("head_commit", Json.obj [("id", Json.str "abc123")]),
    ("repository", Json.obj [("name", Json.str "r"),
                             ("owner", Json.obj [("name", Json.str "o")])])]

/-- A pull_request payload with action opened. -/
def samplePullJson : Json :=
  Json.obj [
    ("action", Json.str "opened"),
    ("pull_request", Json.obj [
      ("head", Json.obj [
        ("repo", Json.obj [("owner", Json.obj [("login", Json.str "alice")]),
                           ("name", Json.str "headrepo")]),
        ("ref", Json.str "feature"),
        ("sha", Json.str "beef01")]),
      ("base", Json.obj [
        ("repo", Json.obj [("owner", Json.obj [("login", Json.str "bob")]),
                           ("name", Json.str "baserepo")]),
        ("ref", Json.str "main")])])]

/-- A syntactically valid push payload whose ref is the empty string. -/
def emptyRefJson : Json := Json.obj [("ref", Json.str "")]

/-- Server accepting tag pushes. -/
def tagServer : Server :=
  { port := 80, path := "/postreceive", secret := "", ignoreTags := false }

/-- Server with an HMAC secret configured. -/
def authServer : Server :=
  { port := 80, path := "/postreceive", secret := "sekrit", ignoreTags := true }

def pushReq : HRequest :=
  { method := "POST", urlPath := "/postreceive", ghEvent := "push",
    hubSignature := "", rawBody := "body", parsedBody := some samplePushJson }

def tagReq : HRequest :=
  { method := "POST", urlPath := "/postreceive", ghEvent := "push",
    hubSignature := "", rawBody := "body", parsedBody := some sampleTagJson }

def pullReq : HRequest :=
  { method := "POST", urlPath := "/postreceive", ghEvent := "pull_request",
    hubSignature := "", rawBody := "body", parsedBody := some samplePullJson }

def emptyRefReq : HRequest :=
  { method := "POST", urlPath := "/postreceive", ghEvent := "push",
    hubSignature := "", rawBody := "body", parsedBody := some emptyRefJson }

def badSigReq : HRequest :=
  { method := "POST", urlPath := "/postreceive", ghEvent := "push",
    hubSignature := "sha1=deadbeef", rawBody := "body", parsedBody := some samplePushJson }

def getReq : HRequest :=
  { method := "GET", urlPath := "/postreceive", ghEvent := "",
    hubSignature := "", rawBody := "", parsedBody := none }

/-- The event the handler produces for `samplePushJson`. -/
def mainPushEvent : Event := ⟨"o", "r", "main", "abc123", "push", "", "", "", ""⟩

/-- The event the handler produces for `samplePullJson`. -/
def samplePullEvent : Event :=
  ⟨"alice", "headrepo", "feature", "beef01", "pull_request", "opened", "bob", "baserepo", "main"⟩

/-- Exhaustive outcome analysis of the push branch. -/
theorem servePush_cases (s : Server) (j : Json) (r : HttpResult)
    (h : servePush s j = some r) :
    r = ⟨500, [], ""⟩ ∨ r = ⟨200, [], ""⟩ ∨
    ∃ e : Event, r = ⟨200, [e], eventString e⟩ ∧ e.type = "push" ∧ e.action = "" ∧
      e.baseOwner = "" ∧ e.baseRepo = "" ∧ e.baseBranch = "" := by
  unfold servePush at h
  repeat' split at h
  all_goals simp_all
  · right; right
    exact ⟨_, h.symm, rfl, rfl, rfl, rfl, rfl⟩

/-- Exhaustive outcome analysis of the pull_request branch. -/
theorem servePullRequest_cases (j : Json) (r : HttpResult)
    (h : servePullRequest j = some r) :
    r = ⟨500, [], ""⟩ ∨
    ∃ e : Event, r = ⟨200, [e], eventString e⟩ ∧ e.type = "pull_request" ∧
      jStr (getKey j "action") = some e.action ∧
      jStr (getKey (getKey (getKey (getKey (getKey j "pull_request") "head") "repo") "owner") "login") = some e.owner ∧
      jStr (getKey (getKey (getKey (getKey j "pull_request") "head") "repo") "name") = some e.repo ∧
      jStr (getKey (getKey (getKey j "pull_request") "head") "ref") = some e.branch ∧
      jStr (getKey (getKey (getKey j "pull_request") "head") "sha") = some e.commit ∧
      jStr (getKey (getKey (getKey (getKey (getKey j "pull_request") "base") "repo") "owner") "login") = some e.baseOwner ∧
      jStr (getKey (getKey (getKey (getKey j "pull_request") "base") "repo") "name") = some e.baseRepo ∧
      jStr (getKey (getKey (getKey j "pull_request") "base") "ref") = some e.baseBranch := by
  unfold servePullRequest at h
  repeat' split at h
  all_goals simp_all
  · right
    exact ⟨_, h.symm, rfl, by simp_all, by simp_all, by simp_all, by simp_all, by simp_all,
           by simp_all, by simp_all, by simp_all⟩

/-- Exhaustive outcome analysis of the whole handler. -/
theorem serveHTTP_cases (hmacSha1 : String → String → List Nat) (s : Server) (req : HRequest)
    (r : HttpResult) (h : serveHTTP hmacSha1 s req = some r) :
    (r.queued = [] ∧ r.status ≠ 200) ∨ r = ⟨200, [], ""⟩ ∨
    ∃ j e, req.parsedBody = some j ∧ r = ⟨200, [e], eventString e⟩ ∧
      ((req.ghEvent = "push" ∧ e.type = "push" ∧ e.action = "" ∧ e.baseOwner = "" ∧
        e.baseRepo = "" ∧ e.baseBranch = "") ∨
       (req.ghEvent = "pull_request" ∧ e.type = "pull_request" ∧
        jStr (getKey j "action") = some e.action ∧
        jStr (getKey (getKey (getKey (getKey (getKey j "pull_request") "head") "repo") "owner") "login") = some e.owner ∧
        jStr (getKey (getKey (getKey (getKey j "pull_request") "head") "repo") "name") = some e.repo ∧
        jStr (getKey (getKey (getKey j "pull_request") "head") "ref") = some e.branch ∧
        jStr (getKey (getKey (getKey j "pull_request") "head") "sha") = some e.commit)) := by
  unfold serveHTTP at h
  repeat' split at h
  all_goals try (exact Or.inl (by injection h with h2; cases h2; exact ⟨rfl, by simp⟩))
  · rename_i jx heq hpush
    rcases servePush_cases _ _ _ h with h1 | h1 | ⟨e, he, h2, h3, h4, h5, h6⟩
    · exact Or.inl (by simp [h1])
    · exact Or.inr (Or.inl h1)
    · exact Or.inr (Or.inr ⟨_, e, heq, he, Or.inl ⟨hpush, h2, h3, h4, h5, h6⟩⟩)
  · rename_i jx heq hnp hpr
    rcases servePullRequest_cases _ _ h with h1 | ⟨e, he, h2, h3, h4, h5, h6, h7, h8, h9, h10⟩
    · exact Or.inl (by simp [h1])
    · exact Or.inr (Or.inr ⟨_, e, heq, he, Or.inr ⟨hpr, h2, h3, h4, h5, h6, h7⟩⟩)


/-- C8: nothing is queued except on success: any non-200 outcome queues no
event, and a queued event implies status 200 with the encoded event as the
response body. -/
theorem serveHTTP_queue_atomicity (hmacSha1 : String → String → List Nat) (s : Server)
    (req : HRequest) (r : HttpResult) (h : serveHTTP hmacSha1 s req = some r) :
    (r.status ≠ 200 → r.queued = []) ∧
    ∀ e ∈ r.queued, r.status = 200 ∧ r.respBody = eventString e := by
  rcases serveHTTP_cases hmacSha1 s req r h with ⟨hq, hs⟩ | hr | ⟨j, e, hb, hr, hcase⟩
  · refine ⟨fun _ => hq, fun e he => ?_⟩
    rw [hq] at he
    cases he
  · subst hr
    exact ⟨fun _ => rfl, by simp⟩
  · subst hr
    refine ⟨fun hs => (hs rfl).elim, ?_⟩
    intro e' he'
    simp only [List.mem_singleton] at he'
    subst he'
    exact ⟨rfl, rfl⟩

/-- C9: every queued event has the documented shape: a push event carries
empty action and base fields; a pull_request event carries the payload
action and describes the head ref. -/
theorem serveHTTP_event_shape (hmacSha1 : String → String → List Nat) (s : Server)
    (req : HRequest) (r : HttpResult) (e : Event)
    (h : serveHTTP hmacSha1 s req = some r) (he : e ∈ r.queued) :
    (e.type = "push" ∨ e.type = "pull_request") ∧
    (e.type = "push" → e.action = "" ∧ e.baseOwner = "" ∧ e.baseRepo = "" ∧ e.baseBranch = "") ∧
    (e.type = "pull_request" → ∃ j, req.parsedBody = some j ∧
      jStr (getKey j "action") = some e.action ∧
      jStr (getKey (getKey (getKey (getKey (getKey j "pull_request") "head") "repo") "owner") "login") = some e.owner ∧
      jStr (getKey (getKey (getKey (getKey j "pull_request") "head") "repo") "name") = some e.repo ∧
      jStr (getKey (getKey (getKey j "pull_request") "head") "ref") = some e.branch ∧
      jStr (getKey (getKey (getKey j "pull_request") "head") "sha") = some e.commit) := by
  rcases serveHTTP_cases hmacSha1 s req r h with ⟨hq, hs⟩ | hr | ⟨j, e', hb, hr, hcase⟩
  · rw [hq] at he; cases he
  · subst hr; simp at he
  · subst hr
    simp only [List.mem_singleton] at he
    subst he
    rcases hcase with ⟨hg, ht, ha, h1, h2, h3⟩ | ⟨hg, ht, ha, h4, h5, h6, h7⟩
    · refine ⟨Or.inl ht, fun _ => ⟨ha, h1, h2, h3⟩, fun hpr => ?_⟩
      rw [ht] at hpr
      exact absurd hpr (by decide)
    · refine ⟨Or.inr ht, fun hpush => ?_, fun _ => ⟨j, hb, ha, h4, h5, h6, h7⟩⟩
      rw [ht] at hpush
      exact absurd hpush (by decide)


theorem sha1_append_ne_empty (x : String) : "sha1=" ++ x ≠ "" := by
  intro h
  have h2 := congrArg (fun s => s.data.length) h
  simp [String.data_append] at h2

theorem servePush_not_403 (s : Server) (j : Json) :
    (servePush s j).map HttpResult.status ≠ some 403 := by
  cases hp : servePush s j with
  | none => simp
  | some r =>
    rcases servePush_cases s j r hp with h | h | ⟨e, he, _⟩
    · simp [h]
    · simp [h]
    · simp [he]

theorem servePullRequest_not_403 (j : Json) :
    (servePullRequest j).map HttpResult.status ≠ some 403 := by
  cases hp : servePullRequest j with
  | none => simp
  | some r =>
    rcases servePullRequest_cases j r hp with h | ⟨e, he, _⟩
    · simp [h]
    · simp [he]

/-- When authentication passes, neither 403 guard of the handler fires. -/
theorem auth_guards_off (hmacSha1 : String → String → List Nat) (s : Server) (req : HRequest)
    (hpass : s.secret = "" ∨ req.hubSignature = "sha1=" ++ hexEncode (hmacSha1 s.secret req.rawBody)) :
    ¬(s.secret ≠ "" ∧ req.hubSignature = "") ∧
    ¬(s.secret ≠ "" ∧ "sha1=" ++ hexEncode (hmacSha1 s.secret req.rawBody) ≠ req.hubSignature) := by
  constructor
  · rcases hpass with h | h
    · simp [h]
    · rintro ⟨hs, hsig⟩
      rw [hsig] at h
      exact sha1_append_ne_empty _ h.symm
  · rcases hpass with h | h
    · simp [h]
    · rintro ⟨hs, hsig⟩
      exact hsig h.symm

/-- Under a POST to the right path with a known event type and passing
authentication, the handler reduces to the extraction phase. -/
theorem serveHTTP_extract (hmacSha1 : String → String → List Nat) (s : Server) (req : HRequest)
    (hm : req.method = "POST") (hp : req.urlPath = s.path)
    (he : req.ghEvent = "push" ∨ req.ghEvent = "pull_request")
    (hpass : s.secret = "" ∨ req.hubSignature = "sha1=" ++ hexEncode (hmacSha1 s.secret req.rawBody)) :
    serveHTTP hmacSha1 s req =
      match req.parsedBody with
      | none => some ⟨500, [], ""⟩
      | some j => if req.ghEvent = "push" then servePush s j else servePullRequest j := by
  have hne : req.ghEvent ≠ "" := by rcases he with h | h <;> simp [h]
  have hknown : ¬(req.ghEvent ≠ "push" ∧ req.ghEvent ≠ "pull_request") := by
    rcases he with h | h <;> simp [h]
  obtain ⟨h1, h2⟩ := auth_guards_off hmacSha1 s req hpass
  unfold serveHTTP
  rw [if_neg (by simp [hm]), if_neg (by simp [hp]), if_neg hne, if_neg hknown,
      if_neg h1, if_neg h2]
  cases hb : req.parsedBody with
  | none => rfl
  | some j =>
    dsimp only
    by_cases hg : req.ghEvent = "push"
    · rw [if_pos hg, if_pos hg]
    · have hpr : req.ghEvent = "pull_request" := by tauto
      rw [if_neg hg, if_pos hpr, if_neg hg]

/-- Authentication failure yields exactly the 403 response. -/
theorem serveHTTP_auth_fail (hmacSha1 : String → String → List Nat) (s : Server) (req : HRequest)
    (hm : req.method = "POST") (hp : req.urlPath = s.path)
    (he : req.ghEvent = "push" ∨ req.ghEvent = "pull_request")
    (hs : s.secret ≠ "") (hsig : req.hubSignature ≠ "sha1=" ++ hexEncode (hmacSha1 s.secret req.rawBody)) :
    serveHTTP hmacSha1 s req =
      some ⟨403, [],
        if req.hubSignature = "" then
          "403 Forbidden - Missing X-Hub-Signature required for HMAC verification"
        else "403 Forbidden - HMAC verification failed"⟩ := by
  have hne : req.ghEvent ≠ "" := by rcases he with h | h <;> simp [h]
  have hknown : ¬(req.ghEvent ≠ "push" ∧ req.ghEvent ≠ "pull_request") := by
    rcases he with h | h <;> simp [h]
  unfold serveHTTP
  rw [if_neg (by simp [hm]), if_neg (by simp [hp]), if_neg hne, if_neg hknown]
  by_cases hempty : req.hubSignature = ""
  · rw [if_pos ⟨hs, hempty⟩, if_pos hempty]
  · rw [if_neg (by rintro ⟨_, h⟩; exact hempty h),
        if_pos ⟨hs, fun h => hsig h.symm⟩, if_neg hempty]

/-- When authentication passes the handler never responds 403. -/
theorem serveHTTP_auth_pass (hmacSha1 : String → String → List Nat) (s : Server) (req : HRequest)
    (hm : req.method = "POST") (hp : req.urlPath = s.path)
    (he : req.ghEvent = "push" ∨ req.ghEvent = "pull_request")
    (hpass : s.secret = "" ∨ req.hubSignature = "sha1=" ++ hexEncode (hmacSha1 s.secret req.rawBody)) :
    (serveHTTP hmacSha1 s req).map HttpResult.status ≠ some 403 := by
  rw [serveHTTP_extract hmacSha1 s req hm hp he hpass]
  cases hb : req.parsedBody with
  | none => simp
  | some j =>
    dsimp only
    by_cases hg : req.ghEvent = "push"
    · rw [if_pos hg]
      exact servePush_not_403 s j
    · rw [if_neg hg]
      exact servePullRequest_not_403 j

/-- C1: with a non-empty secret, a request whose X-Hub-Signature equals
"sha1=" followed by the lowercase hex HMAC-SHA1 of the body passes
authentication (is never answered 403), any other or missing header value
is answered 403 and processing stops, and with an empty secret every
request passes regardless of the header. -/
theorem serveHTTP_authentication (hmacSha1 : String → String → List Nat) (s : Server)
    (req : HRequest) (hm : req.method = "POST") (hp : req.urlPath = s.path)
    (he : req.ghEvent = "push" ∨ req.ghEvent = "pull_request") :
    ((s.secret = "" ∨ req.hubSignature = "sha1=" ++ hexEncode (hmacSha1 s.secret req.rawBody)) →
      (serveHTTP hmacSha1 s req).map HttpResult.status ≠ some 403) ∧
    (s.secret ≠ "" → req.hubSignature ≠ "sha1=" ++ hexEncode (hmacSha1 s.secret req.rawBody) →
      serveHTTP hmacSha1 s req =
        some ⟨403, [],
          if req.hubSignature = "" then
            "403 Forbidden - Missing X-Hub-Signature required for HMAC verification"
          else "403 Forbidden - HMAC verification failed"⟩) :=
  ⟨fun hpass => serveHTTP_auth_pass hmacSha1 s req hm hp he hpass,
   fun hs hsig => serveHTTP_auth_fail hmacSha1 s req hm hp he hs hsig⟩

/-- C7: endpoint status mapping, first applicable branch wins: non-POST
gets 405 even on a wrong path, POST to a wrong path gets 404, a missing or
unknown X-GitHub-Event value gets 400, an authentication failure gets 403,
and a JSON-parse or field-extraction failure gets 500. -/
theorem serveHTTP_status_mapping (hmacSha1 : String → String → List Nat) (s : Server)
    (req : HRequest) :
    (req.method ≠ "POST" →
      serveHTTP hmacSha1 s req = some ⟨405, [], "405 Method not allowed"⟩) ∧
    (req.method = "POST" → req.urlPath ≠ s.path →
      serveHTTP hmacSha1 s req = some ⟨404, [], "404 Not found"⟩) ∧
    (req.method = "POST" → req.urlPath = s.path → req.ghEvent = "" →
      serveHTTP hmacSha1 s req = some ⟨400, [], "400 Bad Request - Missing X-GitHub-Event Header"⟩) ∧
    (req.method = "POST" → req.urlPath = s.path → req.ghEvent ≠ "" →
      req.ghEvent ≠ "push" → req.ghEvent ≠ "pull_request" →
      serveHTTP hmacSha1 s req = some ⟨400, [], "400 Bad Request - Unknown Event Type " ++ req.ghEvent⟩) ∧
    (req.method = "POST" → req.urlPath = s.path →
      (req.ghEvent = "push" ∨ req.ghEvent = "pull_request") →
      s.secret ≠ "" → req.hubSignature ≠ "sha1=" ++ hexEncode (hmacSha1 s.secret req.rawBody) →
      (serveHTTP hmacSha1 s req).map HttpResult.status = some 403) ∧
    (req.method = "POST" → req.urlPath = s.path →
      (req.ghEvent = "push" ∨ req.ghEvent = "pull_request") →
      (s.secret = "" ∨ req.hubSignature = "sha1=" ++ hexEncode (hmacSha1 s.secret req.rawBody)) →
      req.parsedBody = none →
      serveHTTP hmacSha1 s req = some ⟨500, [], ""⟩) ∧
    (req.method = "POST" → req.urlPath = s.path → req.ghEvent = "push" →
      (s.secret = "" ∨ req.hubSignature = "sha1=" ++ hexEncode (hmacSha1 s.secret req.rawBody)) →
      ∀ j, req.parsedBody = some j → jStr (getKey j "ref") = none →
      serveHTTP hmacSha1 s req = some ⟨500, [], ""⟩) := by
  refine ⟨?_, ?_, ?_, ?_, ?_, ?_, ?_⟩
  · intro h
    unfold serveHTTP
    rw [if_pos h]
  · intro hm hp
    unfold serveHTTP
    rw [if_neg (by simp [hm]), if_pos hp]
  · intro hm hp hg
    unfold serveHTTP
    rw [if_neg (by simp [hm]), if_neg (by simp [hp]), if_pos hg]
  · intro hm hp hg h1 h2
    unfold serveHTTP
    rw [if_neg (by simp [hm]), if_neg (by simp [hp]), if_neg hg, if_pos ⟨h1, h2⟩]
  · intro hm hp he hs hsig
    rw [serveHTTP_auth_fail hmacSha1 s req hm hp he hs hsig]
    rfl
  · intro hm hp he hpass hb
    rw [serveHTTP_extract hmacSha1 s req hm hp he hpass, hb]
  · intro hm hp hg hpass j hb href
    rw [serveHTTP_extract hmacSha1 s req hm hp (Or.inl hg) hpass, hb]
    dsimp only
    rw [if_pos hg]
    unfold servePush
    rw [href]


/-- For refs long enough to slice, `ignoreRef` is defined and returns
`false` exactly on branch refs and, when tags are not ignored, tag refs. -/
theorem ignoreRef_eval (s : Server) (ref : String) (hlen : 11 ≤ goLen ref) :
    (ignoreRef s ref = some true ∨ ignoreRef s ref = some false) ∧
    (ignoreRef s ref = some false ↔
      (goTake ref 11 = some "refs/heads/" ∨
       (goTake ref 10 = some "refs/tags/" ∧ s.ignoreTags = false))) := by
  have h10 : 10 ≤ goLen ref := by omega
  unfold ignoreRef goTake
  rw [if_pos h10, if_pos hlen]
  dsimp only
  constructor
  · split
    · right; rfl
    · by_cases hh : String.mk (ref.data.take 11) = "refs/heads/"
      · right; simp [hh]
      · left; simp [hh]
  · split
    · next hcond => simp [hcond]
    · next hcond =>
      constructor
      · intro h
        left
        simpa using h
      · rintro (h | h)
        · simpa using h
        · exact absurd ⟨by simpa using h.1, h.2⟩ hcond


/-- C4: a push delivery is accepted exactly when its ref starts with
"refs/heads/", or starts with "refs/tags/" while IgnoreTags is false, and
the payload head_commit is non-null; otherwise it is silently ignored with
a success response and no queued event. -/
theorem serveHTTP_push_ref_filtering (hmacSha1 : String → String → List Nat) (s : Server)
    (req : HRequest) (j : Json) (ref : String)
    (hm : req.method = "POST") (hp : req.urlPath = s.path) (hg : req.ghEvent = "push")
    (hpass : s.secret = "" ∨ req.hubSignature = "sha1=" ++ hexEncode (hmacSha1 s.secret req.rawBody))
    (hb : req.parsedBody = some j)
    (href : jStr (getKey j "ref") = some ref)
    (hlen : 11 ≤ goLen ref) :
    (¬ ((goTake ref 11 = some "refs/heads/" ∨
         (goTake ref 10 = some "refs/tags/" ∧ s.ignoreTags = false)) ∧
        isNull (getKey j "head_commit") = false) →
      serveHTTP hmacSha1 s req = some ⟨200, [], ""⟩) ∧
    (∀ repo commit owner,
      (goTake ref 11 = some "refs/heads/" ∨
       (goTake ref 10 = some "refs/tags/" ∧ s.ignoreTags = false)) →
      isNull (getKey j "head_commit") = false →
      jStr (getKey (getKey j "repository") "name") = some repo →
      jStr (getKey (getKey j "head_commit") "id") = some commit →
      jStr (getKey (getKey (getKey j "repository") "owner") "name") = some owner →
      serveHTTP hmacSha1 s req =
        some ⟨200, [⟨owner, repo, dropN ref 11, commit, "push", "", "", "", ""⟩],
              eventString ⟨owner, repo, dropN ref 11, commit, "push", "", "", "", ""⟩⟩) := by
  have hext := serveHTTP_extract hmacSha1 s req hm hp (Or.inl hg) hpass
  obtain ⟨htot, hiff⟩ := ignoreRef_eval s ref hlen
  have hdrop : goDrop ref 11 = some (dropN ref 11) := by
    unfold goDrop dropN
    rw [if_pos hlen]
  constructor
  · intro hnot
    rw [hext, hb]
    dsimp only
    rw [if_pos hg]
    unfold servePush
    rw [href]
    dsimp only
    rcases htot with hign | hign
    · rw [hign]
      dsimp only
      rw [if_pos (by simp)]
    · have hnull : isNull (getKey j "head_commit") = true := by
        cases hval : isNull (getKey j "head_commit")
        · exact absurd ⟨hiff.mp hign, hval⟩ hnot
        · rfl
      rw [hign]
      dsimp only
      rw [if_pos (by simp [hnull])]
  · intro repo commit owner hacc hnull hrepo hcommit howner
    rw [hext, hb]
    dsimp only
    rw [if_pos hg]
    unfold servePush
    rw [href]
    dsimp only
    rw [hiff.mpr hacc]
    dsimp only
    rw [if_neg (by simp [hnull]), hdrop]
    dsimp only
    rw [hrepo]
    dsimp only
    rw [hcommit]
    dsimp only
    rw [howner]


/-- C6: for a pull_request delivery the action field is required (missing
action gives an extraction error, not an event); with it present an event
is produced for every action value, carrying the action and taking
owner/repo/branch/commit from pull_request.head and the base fields from
pull_request.base. -/
theorem serveHTTP_pull_request_extraction (hmacSha1 : String → String → List Nat) (s : Server)
    (req : HRequest) (j : Json)
    (hm : req.method = "POST") (hp : req.urlPath = s.path) (hg : req.ghEvent = "pull_request")
    (hpass : s.secret = "" ∨ req.hubSignature = "sha1=" ++ hexEncode (hmacSha1 s.secret req.rawBody))
    (hb : req.parsedBody = some j) :
    (jStr (getKey j "action") = none →
      serveHTTP hmacSha1 s req = some ⟨500, [], ""⟩) ∧
    (∀ action owner repo branch commit baseOwner baseRepo baseBranch,
      jStr (getKey j "action") = some action →
      jStr (getKey (getKey (getKey (getKey (getKey j "pull_request") "head") "repo") "owner") "login") = some owner →
      jStr (getKey (getKey (getKey (getKey j "pull_request") "head") "repo") "name") = some repo →
      jStr (getKey (getKey (getKey j "pull_request") "head") "ref") = some branch →
      jStr (getKey (getKey (getKey j "pull_request") "head") "sha") = some commit →
      jStr (getKey (getKey (getKey (getKey (getKey j "pull_request") "base") "repo") "owner") "login") = some baseOwner →
      jStr (getKey (getKey (getKey (getKey j "pull_request") "base") "repo") "name") = some baseRepo →
      jStr (getKey (getKey (getKey j "pull_request") "base") "ref") = some baseBranch →
      serveHTTP hmacSha1 s req =
        some ⟨200, [⟨owner, repo, branch, commit, "pull_request", action, baseOwner, baseRepo, baseBranch⟩],
              eventString ⟨owner, repo, branch, commit, "pull_request", action, baseOwner, baseRepo, baseBranch⟩⟩) := by
  have hext := serveHTTP_extract hmacSha1 s req hm hp (Or.inr hg) hpass
  have hnp : req.ghEvent ≠ "push" := by simp [hg]
  constructor
  · intro ha
    rw [hext, hb]
    dsimp only
    rw [if_neg hnp]
    unfold servePullRequest
    rw [ha]
  · intro action owner repo branch commit baseOwner baseRepo baseBranch
      ha h1 h2 h3 h4 h5 h6 h7
    rw [hext, hb]
    dsimp only
    rw [if_neg hnp]
    unfold servePullRequest
    rw [ha]
    dsimp only
    rw [h1]
    dsimp only
    rw [h2]
    dsimp only
    rw [h3]
    dsimp only
    rw [h4]
    dsimp only
    rw [h5]
    dsimp only
    rw [h6]
    dsimp only
    rw [h7]


/-- The OR in the line-count guard is a tautology, so NewEvent fails on
every input. -/
theorem newEvent_always_errors (s : String) : newEvent s = .error errInvalidEventFormat := by
  have h : (splitNl (trimCutset s)).length ≠ 5 ∨ (splitNl (trimCutset s)).length ≠ 8 := by omega
  unfold newEvent
  dsimp only
  rw [if_pos h]

/-- C2: the codec round-trip contract fails on the code as written: the
always-true OR in the line-count guard makes NewEvent return the format
error on the encoding of every event, so decode(encode(e)) is never e. -/
theorem newEvent_eventString_always_error (e : Event) :
    newEvent (eventString e) = .error errInvalidEventFormat :=
  newEvent_always_errors (eventString e)

/-- C3: NewEvent does not accept 5-line inputs: the line-count check uses
OR over the two inequalities, which no line count satisfies both sides of,
so even a well-formed 5-line encoding is rejected with the format error,
contradicting the claimed AND semantics under which it would pass. -/
theorem newEvent_rejects_five_lines :
    newEvent "type:   push\nowner:  phayes\nrepo:   hookserve\nbranch: master\ncommit: 1234567890" =
      .error errInvalidEventFormat := by rfl

/-- C5: branch extraction always strips 11 characters: for the tag ref
"refs/tags/v1.0" accepted with IgnoreTags=false the produced branch is
"1.0", not the "v1.0" that stripping the matched 10-character tag prefix
would give. -/
theorem serveHTTP_tag_branch_truncated :
    serveHTTP macStub tagServer tagReq =
      some ⟨200, [⟨"o", "r", "1.0", "abc123", "push", "", "", "", ""⟩],
            eventString ⟨"o", "r", "1.0", "abc123", "push", "", "", "", ""⟩⟩ ∧
    ("1.0" : String) ≠ "v1.0" := by
  exact ⟨by decide, by decide⟩

/-- C10: the ref filter and branch slice are in bounds for every ref of
length at least 11, while the handler panics (is undefined) on a
syntactically valid push payload whose ref is the empty string. -/
theorem ignoreRef_bounds :
    (∀ (s : Server) (ref : String), 11 ≤ goLen ref →
      (ignoreRef s ref).isSome ∧ (goDrop ref 11).isSome) ∧
    serveHTTP macStub newServer emptyRefReq = none := by
  constructor
  · intro s ref hlen
    refine ⟨?_, ?_⟩
    · rcases (ignoreRef_eval s ref hlen).1 with h | h <;> simp [h]
    · unfold goDrop
      rw [if_pos hlen]
      rfl
  · rfl

theorem serveHTTP_authentication_witness :
    serveHTTP macStub authServer badSigReq =
      some ⟨403, [], "403 Forbidden - HMAC verification failed"⟩ :=
  (serveHTTP_authentication macStub authServer badSigReq rfl rfl (Or.inl rfl)).2
    (by decide) (by decide)

theorem serveHTTP_push_ref_filtering_witness :
    serveHTTP macStub newServer pushReq =
      some ⟨200, [mainPushEvent], eventString mainPushEvent⟩ :=
  (serveHTTP_push_ref_filtering macStub newServer pushReq samplePushJson "refs/heads/main"
    rfl rfl rfl (Or.inl rfl) rfl rfl (by decide)).2 "r" "abc123" "o"
    (Or.inl (by decide)) (by decide) rfl rfl rfl

theorem serveHTTP_pull_request_extraction_witness :
    serveHTTP macStub newServer pullReq =
      some ⟨200, [samplePullEvent], eventString samplePullEvent⟩ :=
  (serveHTTP_pull_request_extraction macStub newServer pullReq samplePullJson
    rfl rfl rfl (Or.inl rfl) rfl).2 "opened" "alice" "headrepo" "feature" "beef01"
    "bob" "baserepo" "main" rfl rfl rfl rfl rfl rfl rfl rfl

theorem serveHTTP_status_mapping_witness :
    serveHTTP macStub newServer getReq = some ⟨405, [], "405 Method not allowed"⟩ :=
  (serveHTTP_status_mapping macStub newServer getReq).1 (by decide)

theorem serveHTTP_queue_atomicity_witness :
    (⟨405, [], "405 Method not allowed"⟩ : HttpResult).queued = [] :=
  (serveHTTP_queue_atomicity macStub newServer getReq
    ⟨405, [], "405 Method not allowed"⟩ (by decide)).1 (by decide)

theorem serveHTTP_event_shape_witness :
    mainPushEvent.action = "" ∧ mainPushEvent.baseOwner = "" ∧
    mainPushEvent.baseRepo = "" ∧ mainPushEvent.baseBranch = "" :=
  (serveHTTP_event_shape macStub newServer pushReq
    ⟨200, [mainPushEvent], eventString mainPushEvent⟩ mainPushEvent
    (by decide) (by decide)).2.1 rfl

theorem ignoreRef_bounds_witness :
    (ignoreRef newServer "refs/heads/main").isSome ∧ (goDrop "refs/heads/main" 11).isSome :=
  ignoreRef_bounds.1 newServer "refs/heads/main" (by decide)


end Hookserve
